import Mathlib

/-!
Verification development for the SysWeaver sandbox (jail) lifecycle manager,
a shallow embedding of `internal/jail/jail.go` together with the relevant
parts of `internal/structures/jailStruct.go` and `internal/config/config.go`.

Modelling conventions:
* External effects (stat, mkdir, mount, umount, touch, process spawn/kill,
  command execution) are resolved by an `Env` oracle that fixes the outcome of
  each operation; the functions below mirror the Go control flow over that
  oracle, step by step.
* Every external command the code issues is recorded in an action trace, so
  ordering and absence-of-side-effect properties are statements about traces.
* The kernel's view of what is mounted is a `World` (list of mounted targets):
  a successful mount command appends its target, a successful unmount erases
  it; `isMounted` (the Go code's /proc/mounts scan) is membership in it.
* Log output (`fmt.Fprintf` to `logWriter`) is not modelled: it has no effect
  on control flow except in branches that only choose between log messages.
* `Action.sleep` is in the action vocabulary (a pause the code could take
  between retries); `jail.go` contains no sleep call, so no function below
  ever emits it.
-/

namespace SysWeaver

/-- Go `strings.Contains`: `sHead` starts with `pat` (character lists). -/
def headMatch : List Char → List Char → Bool
  | [], _ => true
  | _ :: _, [] => false
  | p :: ps, c :: cs => p == c && headMatch ps cs

/-- Substring search used to model Go `strings.Contains`. -/
def subSearch : List Char → List Char → Bool
  | pat, [] => pat.isEmpty
  | pat, c :: cs => headMatch pat (c :: cs) || subSearch pat cs

/-- Go `strings.Contains s pat`. -/
def strContainsSub (s pat : String) : Bool :=
  subSearch pat.toList s.toList

/-- Go `filepath.Join` for the path shapes used by jail.go (no cleaning
needed: the joined components never contain `..` or duplicate slashes). -/
def joinPath (a b : String) : String := a ++ "/" ++ b

/-- Go `filepath.Dir`: everything before the last slash (`"."` when there is
no slash, `"/"` for a top-level entry). -/
def dirOf (p : String) : String :=
  match (p.toList.reverse.dropWhile (fun c => c ≠ '/')) with
  | [] => "."
  | ['/'] => "/"
  | _ :: tail => String.mk tail.reverse

/-- `structures.IDMapping`. -/
structure IDMapping where
  containerID : Int
  hostID : Int
  size : Int
  deriving DecidableEq

/-- `structures.MountPoint` (`fsType` models the Go field `Type`). -/
structure MountPoint where
  source : String
  destination : String
  fsType : String
  options : List String
  deriving DecidableEq

/-- `structures.JailConfig`. -/
structure JailConfig where
  chrootDir : String
  environment : List String
  builderPath : String
  templatePath : String
  mountPoints : List MountPoint
  logPath : String
  deriving DecidableEq

/-- The `Jail` struct (jail.go lines 17-30).  `hasProcess` models
`cmd != nil && cmd.Process != nil`; the mutex and logWriter are not part of
the sequential model. -/
structure Jail where
  config : JailConfig
  configPath : String
  running : Bool
  mounts : List String
  pidNamespace : Bool
  uidMappings : List IDMapping
  gidMappings : List IDMapping
  hasProcess : Bool
  deriving DecidableEq

/-- Kernel state: the targets currently mounted (the content of
/proc/mounts restricted to this tool's mounts). -/
structure World where
  mounted : List String
  deriving DecidableEq

/-- One external command/system call issued by the code. -/
inductive Action where
  | mkdirAll (path : String)
  | removeAll (path : String)
  | createFile (path : String)
  | mount (args : List String)
  | touch (path : String)
  | checkMounted (path : String)
  | umount (args : List String)
  | sleep
  | spawnShell (chrootDir : String) (pidNs : Bool) (uids gids : List IDMapping)
  | killProcess
  | waitProcess
  | chrootExec (chrootDir command : String) (args : List String)
  | chmod (mode path : String)
  | losetupDetach (dev : String)
  deriving DecidableEq

/-- The errors jail.go can return, one constructor per `fmt.Errorf` site. -/
inductive JailError where
  | configLoadError
  | chrootDirNotSpecified
  | builderPathNotSpecified
  | builderPathDoesNotExist (p : String)
  | templatePathDoesNotExist (p : String)
  | createChrootDirFailed
  | cleanTmpMountFailed
  | createUpperDirFailed
  | createWorkDirFailed
  | mountOverlayFailed
  | createMountTargetFailed (p : String)
  | mountFailed (source target : String)
  | createTemplateMountDirFailed
  | createScriptsMountDirFailed
  | mountTemplateRootFailed
  | remountTemplateFailed
  | createScriptsDirInTemplateFailed
  | mountScriptsDirFailed
  | remountScriptsFailed
  | criticalTemplateWritable
  | mountTemplateFailed (inner : JailError)
  | createMountTargetDirFailed (p : String)
  | createParentDirFailed (p : String)
  | createMountTargetFileFailed (p : String)
  | alreadyRunning
  | startCommandFailed
  | jailNotRunning
  | killProcessFailed
  | commandFailed
  deriving DecidableEq

/-- Combined program state: the Jail struct, the kernel mount state and the
trace of external commands issued so far. -/
structure St where
  jail : Jail
  world : World
  trace : List Action
  deriving DecidableEq

/-- Oracle fixing the outcome of every external operation. -/
structure Env where
  tempDir : String
  uid : Int
  gid : Int
  loadConfig : String → Option JailConfig
  pathExists : String → Bool
  mkdirOk : String → Bool
  removeOk : String → Bool
  createOk : String → Bool
  mountOk : List String → Bool
  umountOk : List String → Bool
  touchOk : String → Bool
  spawnOk : Bool
  killOk : Bool
  execFails : String → List String → Bool
  execOutput : String → List String → String
  devStatOk : String → Bool
  devMode666 : String → Bool
  loopList : Option (List String)

/-- Record one action in the trace. -/
def logA (s : St) (a : Action) : St := { s with trace := s.trace ++ [a] }

/-- `j.mounts = append(j.mounts, p)` — record a mount in the ledger. -/
def recordMount (s : St) (p : String) : St :=
  { s with jail := { s.jail with mounts := s.jail.mounts ++ [p] } }

/-- A successful mount command makes the target mounted. -/
def kernelMount (s : St) (target : String) : St :=
  { s with world := { mounted := s.world.mounted ++ [target] } }

/-- A successful unmount removes the target from the kernel state. -/
def kernelUnmount (s : St) (target : String) : St :=
  { s with world := { mounted := s.world.mounted.erase target } }

/-- Error-propagating sequencing (Go `if err != nil { return err }`). -/
def andThenE (r : St × Option JailError) (k : St → St × Option JailError) :
    St × Option JailError :=
  match r with
  | (s, none) => k s
  | (s, some e) => (s, some e)

/-- Sequencing that wraps a propagated error (Go `fmt.Errorf("...: %w")`). -/
def andThenWrap (r : St × Option JailError) (w : JailError → JailError)
    (k : St → St × Option JailError) : St × Option JailError :=
  match r with
  | (s, none) => k s
  | (s, some e) => (s, some (w e))

/-- One logged external step that either succeeds or fails with `e`. -/
def doStep (s : St) (a : Action) (ok : Bool) (e : JailError) :
    St × Option JailError :=
  (logA s a, if ok then none else some e)

/-- Run a `mount` command; on success the target becomes mounted. -/
def runMount (env : Env) (s : St) (args : List String) (target : String)
    (e : JailError) : St × Option JailError :=
  let s := logA s (.mount args)
  if env.mountOk args then (kernelMount s target, none) else (s, some e)

/-- `mount -o remount,ro,bind target` (no new mount entry). -/
def runRemount (env : Env) (s : St) (target : String) (e : JailError) :
    St × Option JailError :=
  doStep s (.mount ["-o", "remount,ro,bind", target])
    (env.mountOk ["-o", "remount,ro,bind", target]) e

/-- The path of the writability probe file inside the mounted template. -/
def templateTestFile (chrootDir : String) : String :=
  joinPath (joinPath chrootDir "template") "test_readonly.tmp"

/-- `mountTemplate` (jail.go lines 222-313): bind-mount the template and its
scripts directory read-only, then probe that the template really is
read-only by attempting to create a marker file; if the creation succeeds,
fail with the critical-invariant error. -/
def mountTemplate (env : Env) (s : St) : St × Option JailError :=
  let j := s.jail
  if env.pathExists j.config.templatePath = false then
    (s, some (.templatePathDoesNotExist j.config.templatePath))
  else
    let templateMount := joinPath j.config.chrootDir "template"
    let scriptsMount := joinPath j.config.chrootDir "scripts"
    andThenE (doStep s (.mkdirAll templateMount) (env.mkdirOk templateMount)
        .createTemplateMountDirFailed) fun s =>
    andThenE (doStep s (.mkdirAll scriptsMount) (env.mkdirOk scriptsMount)
        .createScriptsMountDirFailed) fun s =>
    andThenE (runMount env s ["--bind", j.config.templatePath, templateMount]
        templateMount .mountTemplateRootFailed) fun s =>
    andThenE (runRemount env s templateMount .remountTemplateFailed) fun s =>
    let s := recordMount s templateMount
    let scriptsSrc := joinPath j.config.templatePath "scripts"
    andThenE (if env.pathExists scriptsSrc = false then
        doStep s (.mkdirAll scriptsSrc) (env.mkdirOk scriptsSrc)
          .createScriptsDirInTemplateFailed
      else (s, none)) fun s =>
    andThenE (runMount env s ["--bind", scriptsSrc, scriptsMount]
        scriptsMount .mountScriptsDirFailed) fun s =>
    andThenE (runRemount env s scriptsMount .remountScriptsFailed) fun s =>
    let s := recordMount s scriptsMount
    let tempFile := templateTestFile j.config.chrootDir
    let s := logA s (.touch tempFile)
    if env.touchOk tempFile then
      (s, some .criticalTemplateWritable)
    else
      (s, none)

/-- One entry of the `specialMounts` table in `setupMounts`. -/
structure SpecialMount where
  source : String
  target : String
  fstype : String
  options : String
  deriving DecidableEq

/-- The fixed special-filesystem table (jail.go lines 130-140). -/
def specialMounts (chrootDir : String) : List SpecialMount :=
  [⟨"/proc", joinPath chrootDir "proc", "proc", ""⟩,
   ⟨"/sys", joinPath chrootDir "sys", "sysfs", ""⟩,
   ⟨"/dev", joinPath chrootDir "dev", "devtmpfs", ""⟩,
   ⟨"/dev/pts", joinPath chrootDir "dev/pts", "devpts", ""⟩]

/-- Argument list of the mount command for one special mount. -/
def specialMountArgs (m : SpecialMount) : List String :=
  ["-t", m.fstype, m.source, m.target] ++
    (if m.options = "" then [] else ["-o", m.options])

/-- The special-mounts loop of `setupMounts` (jail.go lines 142-161). -/
def mountSpecialList (env : Env) (ms : List SpecialMount) (s : St) :
    St × Option JailError :=
  match ms with
  | [] => (s, none)
  | m :: rest =>
    andThenE (doStep s (.mkdirAll m.target) (env.mkdirOk m.target)
        (.createMountTargetFailed m.target)) fun s =>
    andThenE (runMount env s (specialMountArgs m) m.target
        (.mountFailed m.source m.target)) fun s =>
    mountSpecialList env rest (recordMount s m.target)

/-- Argument list of the mount command for one extra mount point. -/
def extraMountArgs (mp : MountPoint) (targetDir : String) : List String :=
  if mp.fsType = "bind" then ["--bind", mp.source, targetDir]
  else ["-t", mp.fsType, mp.source, targetDir] ++
    (if mp.options.isEmpty then [] else ["-o", String.intercalate "," mp.options])

/-- The extra-mount-points loop of `setupMounts` (jail.go lines 169-216). -/
def mountExtraList (env : Env) (chrootDir : String) (mps : List MountPoint)
    (s : St) : St × Option JailError :=
  match mps with
  | [] => (s, none)
  | mp :: rest =>
    let targetDir := joinPath chrootDir mp.destination
    andThenE
      (if strContainsSub targetDir "." = false then
        doStep s (.mkdirAll targetDir) (env.mkdirOk targetDir)
          (.createMountTargetDirFailed targetDir)
      else
        let parentDir := dirOf targetDir
        andThenE (doStep s (.mkdirAll parentDir) (env.mkdirOk parentDir)
            (.createParentDirFailed parentDir)) fun s =>
        if env.pathExists targetDir = false then
          doStep s (.createFile targetDir) (env.createOk targetDir)
            (.createMountTargetFileFailed targetDir)
        else (s, none)) fun s =>
    andThenE (runMount env s (extraMountArgs mp targetDir) targetDir
        (.mountFailed mp.source targetDir)) fun s =>
    mountExtraList env chrootDir rest (recordMount s targetDir)

/-- The overlay `-o` option string (jail.go lines 108-112). -/
def overlayOptions (builderPath upperDir workDir : String) : String :=
  "lowerdir=" ++ builderPath ++ ",upperdir=" ++ upperDir ++ ",workdir=" ++ workDir

/-- `setupMounts` (jail.go lines 69-219). -/
def setupMounts (env : Env) (s : St) : St × Option JailError :=
  let j := s.jail
  if env.pathExists j.config.builderPath = false then
    (s, some (.builderPathDoesNotExist j.config.builderPath))
  else if env.pathExists j.config.templatePath = false then
    (s, some (.templatePathDoesNotExist j.config.templatePath))
  else
    andThenE (doStep s (.mkdirAll j.config.chrootDir)
        (env.mkdirOk j.config.chrootDir) .createChrootDirFailed) fun s =>
    let tmpMountBase := joinPath env.tempDir "sysweaver-mount"
    andThenE (if env.pathExists tmpMountBase then
        doStep s (.removeAll tmpMountBase) (env.removeOk tmpMountBase)
          .cleanTmpMountFailed
      else (s, none)) fun s =>
    let upperDir := joinPath tmpMountBase "upper"
    let workDir := joinPath tmpMountBase "work"
    andThenE (doStep s (.mkdirAll upperDir) (env.mkdirOk upperDir)
        .createUpperDirFailed) fun s =>
    andThenE (doStep s (.mkdirAll workDir) (env.mkdirOk workDir)
        .createWorkDirFailed) fun s =>
    andThenE (runMount env s
        ["-t", "overlay", "overlay", "-o",
         overlayOptions j.config.builderPath upperDir workDir, j.config.chrootDir]
        j.config.chrootDir .mountOverlayFailed) fun s =>
    let s := recordMount s j.config.chrootDir
    andThenE (mountSpecialList env (specialMounts j.config.chrootDir) s) fun s =>
    andThenWrap (mountTemplate env s) JailError.mountTemplateFailed fun s =>
    mountExtraList env j.config.chrootDir j.config.mountPoints s

/-- `isMounted` (jail.go lines 394-422): the /proc/mounts scan, i.e.
membership of the path in the kernel mount state. -/
def isMounted (s : St) (path : String) : Bool :=
  decide (path ∈ s.world.mounted)

/-- The body of the reverse ledger loop in `cleanup` (jail.go lines
429-469): skip if not mounted, then plain / forced / lazy unmount, stopping
at the first success; a lazy-unmount failure is ignored. -/
def unmountEntry (env : Env) (s : St) (mountPoint : String) : St :=
  let s := logA s (.checkMounted mountPoint)
  if isMounted s mountPoint = false then s
  else
    let s := logA s (.umount [mountPoint])
    if env.umountOk [mountPoint] then kernelUnmount s mountPoint
    else
      let s := logA s (.umount ["-f", mountPoint])
      if env.umountOk ["-f", mountPoint] then kernelUnmount s mountPoint
      else
        let s := logA s (.umount ["-l", mountPoint])
        if env.umountOk ["-l", mountPoint] then kernelUnmount s mountPoint
        else s

/-- The defensive second-pass target list (jail.go lines 479-487). -/
def possibleMounts (chrootDir : String) : List String :=
  [joinPath chrootDir "dev/pts", joinPath chrootDir "dev",
   joinPath chrootDir "proc", joinPath chrootDir "sys",
   joinPath chrootDir "template", joinPath chrootDir "scripts", chrootDir]

/-- Second-pass forced cleanup of one possible mount (jail.go lines
489-495): force then lazy unmount, results ignored. -/
def forcedCleanupEntry (env : Env) (s : St) (mount : String) : St :=
  let s := logA s (.checkMounted mount)
  if isMounted s mount then
    let s := logA s (.umount ["-f", mount])
    let s := if env.umountOk ["-f", mount] then kernelUnmount s mount else s
    let s := logA s (.umount ["-l", mount])
    if env.umountOk ["-l", mount] then kernelUnmount s mount else s
  else s

/-- Restore permissions of one device node (jail.go lines 501-523). -/
def fixDevice (env : Env) (s : St) (dev : String) : St :=
  if env.devStatOk dev && !(env.devMode666 dev) then logA s (.chmod "666" dev)
  else s

/-- The device-permission restoration block of `cleanup`. -/
def restoreDevicePermissions (env : Env) (s : St) : St :=
  let s := fixDevice env s "/dev/null"
  (["/dev/zero", "/dev/random", "/dev/urandom"]).foldl (fixDevice env) s

/-- Processing of one `losetup -a` output line (jail.go lines 552-573). -/
def loopDeviceLine (s : St) (line : String) : St :=
  if line = "" then s
  else if strContainsSub line "alpine-custom.img" || strContainsSub line "sysweaver" then
    match line.splitOn ":" with
    | [] => s
    | f :: _ => logA s (.losetupDetach f.trim)
  else s

/-- `cleanupLoopDevices` (jail.go lines 542-574); `Env.loopList = none`
models `losetup -a` itself failing. -/
def cleanupLoopDevices (env : Env) (s : St) : St :=
  match env.loopList with
  | none => s
  | some lines => lines.foldl loopDeviceLine s

/-- `cleanup` (jail.go lines 425-539): unmount the ledger in reverse order,
clear the ledger, defensively sweep the fixed mount targets, restore device
permissions, detach loop devices, and remove the temporary base dir. -/
def cleanup (env : Env) (s : St) : St :=
  let s := (s.jail.mounts.reverse).foldl (unmountEntry env) s
  let s := { s with jail := { s.jail with mounts := [] } }
  let s :=
    if s.jail.config.chrootDir = "" then s
    else (possibleMounts s.jail.config.chrootDir).foldl (forcedCleanupEntry env) s
  let s := restoreDevicePermissions env s
  let s := cleanupLoopDevices env s
  if strContainsSub s.jail.config.chrootDir "sysweaver" then
    let tmpBase := dirOf s.jail.config.chrootDir
    if strContainsSub tmpBase "tmp" then logA s (.removeAll tmpBase) else s
  else s

/-- `Start` (jail.go lines 316-391).  Note: a `setupMounts` failure is
returned directly; `cleanup` runs only when the confined process fails to
spawn. -/
def Start (env : Env) (s : St) : St × Option JailError :=
  if s.jail.running then (s, some .alreadyRunning)
  else
    andThenE (setupMounts env s) fun s =>
    let s := logA s (.spawnShell s.jail.config.chrootDir s.jail.pidNamespace
      s.jail.uidMappings s.jail.gidMappings)
    if env.spawnOk then
      ({ s with jail := { s.jail with running := true, hasProcess := true } }, none)
    else
      (cleanup env s, some .startCommandFailed)

/-- `Stop` (jail.go lines 577-603).  Note: a failing `Process.Kill` returns
before `cleanup` and before `running` is reset; `Wait` errors are only
logged. -/
def Stop (env : Env) (s : St) : St × Option JailError :=
  if s.jail.running = false then (s, some .jailNotRunning)
  else
    andThenE
      (if s.jail.hasProcess then
        let s := logA s .killProcess
        if env.killOk = false then (s, some .killProcessFailed)
        else (logA s .waitProcess, none)
      else (s, none)) fun s =>
    let s := cleanup env s
    ({ s with jail := { s.jail with running := false } }, none)

/-- `IsRunning` (jail.go lines 606-611). -/
def IsRunning (j : Jail) : Bool := j.running

/-- `ExecuteCommand` (jail.go lines 622-647): streaming variant, output goes
to the log sink only, so the returned output is always `none`. -/
def ExecuteCommand (env : Env) (s : St) (command : String)
    (args : List String) : St × Option String × Option JailError :=
  if s.jail.running = false then (s, none, some .jailNotRunning)
  else
    let s := logA s (.chrootExec s.jail.config.chrootDir command args)
    if env.execFails command args then (s, none, some .commandFailed)
    else (s, none, none)

/-- `ExecuteCommandWithOutput` (jail.go lines 650-672): buffered variant,
`CombinedOutput` is returned both on success and on failure. -/
def ExecuteCommandWithOutput (env : Env) (s : St) (command : String)
    (args : List String) : St × Option String × Option JailError :=
  if s.jail.running = false then (s, none, some .jailNotRunning)
  else
    let s := logA s (.chrootExec s.jail.config.chrootDir command args)
    let output := env.execOutput command args
    if env.execFails command args then (s, some output, some .commandFailed)
    else (s, some output, none)

/-- `GetChrootDir`. -/
def GetChrootDir (j : Jail) : String := j.config.chrootDir

/-- `IsPidNamespaceEnabled`. -/
def IsPidNamespaceEnabled (j : Jail) : Bool := j.pidNamespace

/-- `GetUIDMappings`. -/
def GetUIDMappings (j : Jail) : List IDMapping := j.uidMappings

/-- `GetGIDMappings`. -/
def GetGIDMappings (j : Jail) : List IDMapping := j.gidMappings

/-- `SetPidNamespace` (jail.go lines 703-710): only effective while idle. -/
def SetPidNamespace (j : Jail) (enabled : Bool) : Jail :=
  if j.running = false then { j with pidNamespace := enabled } else j

/-- `SetUIDMappings` (jail.go lines 713-720): only effective while idle. -/
def SetUIDMappings (j : Jail) (mappings : List IDMapping) : Jail :=
  if j.running = false then { j with uidMappings := mappings } else j

/-- `SetGIDMappings` (jail.go lines 723-730): only effective while idle. -/
def SetGIDMappings (j : Jail) (mappings : List IDMapping) : Jail :=
  if j.running = false then { j with gidMappings := mappings } else j

/-- The body of `NewJail` after `config.LoadConfig` succeeded (jail.go lines
40-65): required-field checks, then the template path from the argument
replaces whatever the config file carried. -/
def mkJailFromLoaded (env : Env) (configPath templatePath : String)
    (cfg : JailConfig) : Except JailError Jail :=
  if cfg.chrootDir = "" then .error .chrootDirNotSpecified
  else if cfg.builderPath = "" then .error .builderPathNotSpecified
  else .ok {
    config := { cfg with templatePath := templatePath }
    configPath := configPath
    running := false
    mounts := []
    pidNamespace := true
    uidMappings := [⟨0, env.uid, 1⟩]
    gidMappings := [⟨0, env.gid, 1⟩]
    hasProcess := false }

/-- `NewJail` (jail.go lines 32-66). -/
def NewJail (env : Env) (configPath templatePath : String) :
    Except JailError Jail :=
  match env.loadConfig configPath with
  | none => .error .configLoadError
  | some cfg => mkJailFromLoaded env configPath templatePath cfg

/-- Projection: the path of a mounted-check action. -/
def checkedPath : Action → Option String
  | .checkMounted p => some p
  | _ => none

/-- The sequence of paths whose mounted state was checked. -/
def checkedPaths (tr : List Action) : List String := tr.filterMap checkedPath

/-- Projection: the target of an unmount attempt (last argv element). -/
def umountTarget : Action → Option String
  | .umount args => args.getLast?
  | _ => none

/-- The sequence of unmount-attempt targets. -/
def umountTargets (tr : List Action) : List String := tr.filterMap umountTarget

/-- Projection: the full argv of an unmount attempt. -/
def umountArgs : Action → Option (List String)
  | .umount args => some args
  | _ => none

/-- The sequence of unmount-attempt argument vectors. -/
def umountArgsOf (tr : List Action) : List (List String) := tr.filterMap umountArgs

/-- Is this action an unmount attempt? -/
def isUmountAction : Action → Bool
  | .umount _ => true
  | _ => false

/-! ### Concrete environments and states used to evaluate the model -/

/-- Every external operation succeeds; the template probe fails (the mount
really is read-only); no stray loop devices or device-permission damage. -/
def baseEnv : Env where
  tempDir := "/tmp"
  uid := 0
  gid := 0
  loadConfig := fun _ => none
  pathExists := fun _ => true
  mkdirOk := fun _ => true
  removeOk := fun _ => true
  createOk := fun _ => true
  mountOk := fun _ => true
  umountOk := fun _ => true
  touchOk := fun _ => false
  spawnOk := true
  killOk := true
  execFails := fun _ _ => false
  execOutput := fun _ _ => ""
  devStatOk := fun _ => false
  devMode666 := fun _ => true
  loopList := none

def sampleConfig : JailConfig where
  chrootDir := "/c"
  environment := []
  builderPath := "/b"
  templatePath := "/t"
  mountPoints := []
  logPath := ""

def idleJail : Jail where
  config := sampleConfig
  configPath := "/t/jail.yaml"
  running := false
  mounts := []
  pidNamespace := true
  uidMappings := [⟨0, 1000, 1⟩]
  gidMappings := [⟨0, 1000, 1⟩]
  hasProcess := false

def idleSt : St := ⟨idleJail, ⟨[]⟩, []⟩

def runningJail : Jail :=
  { idleJail with running := true, hasProcess := true, mounts := ["/c"] }

def runningSt : St := ⟨runningJail, ⟨["/c"]⟩, []⟩

/-- The template bind mount turns out to be writable. -/
def envTouchWritable : Env := { baseEnv with touchOk := fun _ => true }

/-- Mounting proc fails; only the needed source paths exist. -/
def envProcMountFail : Env :=
  { baseEnv with
    pathExists := fun p => p == "/b" || p == "/t" || p == "/t/scripts",
    mountOk := fun args => args != ["-t", "proc", "/proc", "/c/proc"] }

/-- Setup succeeds but the confined shell fails to spawn. -/
def envSpawnFail : Env :=
  { baseEnv with
    pathExists := fun p => p == "/b" || p == "/t" || p == "/t/scripts",
    spawnOk := false }

/-- Killing the confined process fails. -/
def envKillFail : Env := { baseEnv with killOk := false }

/-- Every unmount attempt fails. -/
def envUmountFail : Env := { baseEnv with umountOk := fun _ => false }

/-- The confined command exits non-zero with output. -/
def envExecFail : Env :=
  { baseEnv with execFails := fun _ _ => true, execOutput := fun _ _ => "boom" }

/-- The config loader returns `sampleConfig` for any path. -/
def envLoad : Env := { baseEnv with loadConfig := fun _ => some sampleConfig }

/-- No path exists on disk. -/
def envNoPaths : Env := { baseEnv with pathExists := fun _ => false }

/-- A running jail with an empty confinement-root path, one ledger entry and
no process handle (isolates the ledger loop of `cleanup`). -/
def emptyChrootConfig : JailConfig := { sampleConfig with chrootDir := "" }

def emptyChrootJail : Jail :=
  { idleJail with
    config := emptyChrootConfig
    running := true
    mounts := ["/m"] }

def stEmptyChroot : St := ⟨emptyChrootJail, ⟨["/m"]⟩, []⟩

/-- Confinement root, base tree and template tree are all the same path. -/
def samePathConfig : JailConfig :=
  { sampleConfig with chrootDir := "/x", builderPath := "/x", templatePath := "/x" }

def samePathSt : St := ⟨{ idleJail with config := samePathConfig }, ⟨[]⟩, []⟩

/-! ### General lemmas about the embedding -/

theorem logA_jail (s : St) (a : Action) : (logA s a).jail = s.jail := rfl

theorem kernelUnmount_jail (s : St) (p : String) :
    (kernelUnmount s p).jail = s.jail := rfl

theorem kernelMount_jail (s : St) (p : String) :
    (kernelMount s p).jail = s.jail := rfl

/-- `j'` agrees with `j` on every field except possibly the mount ledger. -/
def JailMountsOnly (j j' : Jail) : Prop := ∃ m, j' = { j with mounts := m }

theorem jmoRefl (j : Jail) : JailMountsOnly j j := ⟨j.mounts, Eq.refl j⟩

theorem jmoTrans {a b c : Jail} (h1 : JailMountsOnly a b)
    (h2 : JailMountsOnly b c) : JailMountsOnly a c := by
  obtain ⟨m1, rfl⟩ := h1
  obtain ⟨m2, rfl⟩ := h2
  exact ⟨m2, Eq.refl _⟩

theorem jmoConfig {a b : Jail} (h : JailMountsOnly a b) :
    b.config = a.config := by obtain ⟨m, rfl⟩ := h; rfl

theorem jmoRunning {a b : Jail} (h : JailMountsOnly a b) :
    b.running = a.running := by obtain ⟨m, rfl⟩ := h; rfl

/-- The ledger-loop body never touches the Jail struct. -/
theorem unmountEntry_jail (env : Env) (s : St) (p : String) :
    (unmountEntry env s p).jail = s.jail := by
  simp only [unmountEntry, logA, kernelUnmount, isMounted]
  repeat' split
  all_goals rfl

/-- The defensive second-pass body never touches the Jail struct. -/
theorem forcedCleanupEntry_jail (env : Env) (s : St) (p : String) :
    (forcedCleanupEntry env s p).jail = s.jail := by
  simp only [forcedCleanupEntry, logA, kernelUnmount, isMounted]
  repeat' split
  all_goals rfl

theorem fixDevice_jail (env : Env) (s : St) (dev : String) :
    (fixDevice env s dev).jail = s.jail := by
  unfold fixDevice
  split
  all_goals rfl

theorem loopDeviceLine_jail (s : St) (line : String) :
    (loopDeviceLine s line).jail = s.jail := by
  unfold loopDeviceLine
  repeat' split
  all_goals rfl

theorem foldl_jail_preserved {α : Type} (f : St → α → St)
    (hf : ∀ s a, (f s a).jail = s.jail) :
    ∀ (l : List α) (s : St), (l.foldl f s).jail = s.jail := by
  intro l
  induction l with
  | nil => intro s; rfl
  | cons a rest ih => intro s; rw [List.foldl_cons, ih, hf]

theorem restoreDevicePermissions_jail (env : Env) (s : St) :
    (restoreDevicePermissions env s).jail = s.jail := by
  unfold restoreDevicePermissions
  rw [foldl_jail_preserved (fixDevice env) (fixDevice_jail env), fixDevice_jail]

theorem cleanupLoopDevices_jail (env : Env) (s : St) :
    (cleanupLoopDevices env s).jail = s.jail := by
  unfold cleanupLoopDevices
  cases env.loopList with
  | none => rfl
  | some lines =>
    exact foldl_jail_preserved loopDeviceLine loopDeviceLine_jail lines s

/-- Teardown leaves the Jail struct unchanged except that the ledger is
cleared unconditionally. -/
theorem cleanup_jail (env : Env) (s : St) :
    (cleanup env s).jail = { s.jail with mounts := [] } := by
  unfold cleanup
  have h1 := foldl_jail_preserved (unmountEntry env) (unmountEntry_jail env)
    s.jail.mounts.reverse s
  set s1 := s.jail.mounts.reverse.foldl (unmountEntry env) s with hs1
  have h2 : ({ s1 with jail := { s1.jail with mounts := [] } } : St).jail
      = { s.jail with mounts := [] } := by rw [h1]
  set s2 : St := { s1 with jail := { s1.jail with mounts := [] } } with hs2
  have h3 : (if s2.jail.config.chrootDir = "" then s2
      else (possibleMounts s2.jail.config.chrootDir).foldl (forcedCleanupEntry env) s2).jail
      = s2.jail := by
    split
    · rfl
    · exact foldl_jail_preserved (forcedCleanupEntry env) (forcedCleanupEntry_jail env) _ s2
  set s3 := (if s2.jail.config.chrootDir = "" then s2
      else (possibleMounts s2.jail.config.chrootDir).foldl (forcedCleanupEntry env) s2) with hs3
  set s4 := restoreDevicePermissions env s3 with hs4
  set s5 := cleanupLoopDevices env s4 with hs5
  have h4 : s4.jail = s3.jail := restoreDevicePermissions_jail env s3
  have h5 : s5.jail = s4.jail := cleanupLoopDevices_jail env s4
  have hfin : (if strContainsSub s5.jail.config.chrootDir "sysweaver" = true then
      if strContainsSub (dirOf s5.jail.config.chrootDir) "tmp" = true then
        logA s5 (.removeAll (dirOf s5.jail.config.chrootDir)) else s5
      else s5).jail = s5.jail := by
    repeat' split
    all_goals rfl
  rw [hfin, h5, h4, h3, h2]

theorem appendExt0 {α : Type} (l : List α) : ∃ t, l = l ++ t :=
  ⟨[], (List.append_nil _).symm⟩

theorem appendExt1 {α : Type} (l a : List α) : ∃ t, l ++ a = l ++ t := ⟨a, rfl⟩

theorem appendExt2 {α : Type} (l a b : List α) : ∃ t, l ++ a ++ b = l ++ t :=
  ⟨a ++ b, by rw [List.append_assoc]⟩

theorem appendExt3 {α : Type} (l a b c : List α) :
    ∃ t, l ++ a ++ b ++ c = l ++ t :=
  ⟨a ++ (b ++ c), by simp [List.append_assoc]⟩

theorem appendExt4 {α : Type} (l a b c d : List α) :
    ∃ t, l ++ a ++ b ++ c ++ d = l ++ t :=
  ⟨a ++ (b ++ (c ++ d)), by simp [List.append_assoc]⟩

/-- All phases only append to the trace. -/
theorem foldl_trace_ext {α : Type} (f : St → α → St)
    (hf : ∀ s a, ∃ t, (f s a).trace = s.trace ++ t) :
    ∀ (l : List α) (s : St), ∃ t, (l.foldl f s).trace = s.trace ++ t := by
  intro l
  induction l with
  | nil => intro s; exact ⟨[], by simp⟩
  | cons a rest ih =>
    intro s
    obtain ⟨t1, h1⟩ := hf s a
    obtain ⟨t2, h2⟩ := ih (f s a)
    exact ⟨t1 ++ t2, by rw [List.foldl_cons, h2, h1, List.append_assoc]⟩

theorem forcedCleanupEntry_trace (env : Env) (s : St) (p : String) :
    ∃ t, (forcedCleanupEntry env s p).trace = s.trace ++ t := by
  simp only [forcedCleanupEntry, logA, kernelUnmount, isMounted]
  repeat' split
  all_goals first
    | exact appendExt0 _
    | exact appendExt1 _ _
    | exact appendExt2 _ _ _
    | exact appendExt3 _ _ _ _
    | exact appendExt4 _ _ _ _ _

theorem fixDevice_trace (env : Env) (s : St) (dev : String) :
    ∃ t, (fixDevice env s dev).trace = s.trace ++ t := by
  unfold fixDevice
  split
  · exact ⟨_, rfl⟩
  · exact ⟨[], by simp⟩

theorem loopDeviceLine_trace (s : St) (line : String) :
    ∃ t, (loopDeviceLine s line).trace = s.trace ++ t := by
  unfold loopDeviceLine
  repeat' split
  all_goals first
    | exact appendExt0 _
    | exact appendExt1 _ _
    | exact appendExt2 _ _ _
    | exact appendExt3 _ _ _ _
    | exact appendExt4 _ _ _ _ _

theorem restoreDevicePermissions_trace (env : Env) (s : St) :
    ∃ t, (restoreDevicePermissions env s).trace = s.trace ++ t := by
  unfold restoreDevicePermissions
  obtain ⟨t1, h1⟩ := fixDevice_trace env s "/dev/null"
  obtain ⟨t2, h2⟩ := foldl_trace_ext (fixDevice env) (fixDevice_trace env)
    ["/dev/zero", "/dev/random", "/dev/urandom"] (fixDevice env s "/dev/null")
  exact ⟨t1 ++ t2, by rw [h2, h1, List.append_assoc]⟩

theorem cleanupLoopDevices_trace (env : Env) (s : St) :
    ∃ t, (cleanupLoopDevices env s).trace = s.trace ++ t := by
  unfold cleanupLoopDevices
  cases env.loopList with
  | none => exact ⟨[], by simp⟩
  | some lines => exact foldl_trace_ext loopDeviceLine loopDeviceLine_trace lines s

/-- Everything `cleanup` does after the reverse ledger loop only appends
further actions to the trace. -/
theorem cleanup_trace_decomp (env : Env) (s : St) :
    ∃ t, (cleanup env s).trace
      = ((s.jail.mounts.reverse).foldl (unmountEntry env) s).trace ++ t := by
  unfold cleanup
  set s1 := s.jail.mounts.reverse.foldl (unmountEntry env) s with hs1
  set s2 : St := { s1 with jail := { s1.jail with mounts := [] } } with hs2
  have e2 : s2.trace = s1.trace := rfl
  set s3 := (if s2.jail.config.chrootDir = "" then s2
      else (possibleMounts s2.jail.config.chrootDir).foldl (forcedCleanupEntry env) s2) with hs3
  have e3 : ∃ t, s3.trace = s2.trace ++ t := by
    rw [hs3]
    split
    · exact ⟨[], by simp⟩
    · exact foldl_trace_ext (forcedCleanupEntry env) (forcedCleanupEntry_trace env) _ s2
  obtain ⟨t3, h3⟩ := e3
  obtain ⟨t4, h4⟩ := restoreDevicePermissions_trace env s3
  set s4 := restoreDevicePermissions env s3 with hs4
  obtain ⟨t5, h5⟩ := cleanupLoopDevices_trace env s4
  set s5 := cleanupLoopDevices env s4 with hs5
  have e6 : ∃ t, (if strContainsSub s5.jail.config.chrootDir "sysweaver" = true then
      if strContainsSub (dirOf s5.jail.config.chrootDir) "tmp" = true then
        logA s5 (.removeAll (dirOf s5.jail.config.chrootDir)) else s5
      else s5).trace = s5.trace ++ t := by
    repeat' split
    all_goals first
      | exact appendExt0 _
      | exact appendExt1 _ _
  obtain ⟨t6, h6⟩ := e6
  refine ⟨t3 ++ t4 ++ t5 ++ t6, ?_⟩
  rw [h6, h5, h4, h3, e2]
  simp [List.append_assoc]

theorem checkedPaths_append (a b : List Action) :
    checkedPaths (a ++ b) = checkedPaths a ++ checkedPaths b := by
  simp [checkedPaths]

theorem umountTargets_append (a b : List Action) :
    umountTargets (a ++ b) = umountTargets a ++ umountTargets b := by
  simp [umountTargets]

theorem umountArgsOf_append (a b : List Action) :
    umountArgsOf (a ++ b) = umountArgsOf a ++ umountArgsOf b := by
  simp [umountArgsOf]

/-- The ledger-loop body checks exactly its own entry. -/
theorem unmountEntry_checked (env : Env) (s : St) (p : String) :
    checkedPaths ((unmountEntry env s p).trace) = checkedPaths s.trace ++ [p] := by
  simp only [unmountEntry, logA, kernelUnmount, isMounted]
  repeat' split
  all_goals simp [checkedPaths, checkedPath]

/-- The reverse ledger loop checks its entries in exactly the given order. -/
theorem foldl_unmountEntry_checked (env : Env) :
    ∀ (l : List String) (s : St),
      checkedPaths ((l.foldl (unmountEntry env) s).trace)
        = checkedPaths s.trace ++ l := by
  intro l
  induction l with
  | nil => intro s; simp
  | cons p rest ih =>
    intro s
    rw [List.foldl_cons, ih, unmountEntry_checked, List.append_assoc]
    rfl

/-- When its entry is still mounted and the plain unmount succeeds, the
ledger-loop body makes exactly one check and one unmount attempt and
removes the entry from the kernel state. -/
theorem unmountEntry_plain_step (env : Env) (s : St) (p : String)
    (hm : p ∈ s.world.mounted) (hok : env.umountOk [p] = true) :
    unmountEntry env s p
      = { s with world := { mounted := s.world.mounted.erase p },
                 trace := s.trace ++ [Action.checkMounted p, Action.umount [p]] } := by
  simp only [unmountEntry, logA, kernelUnmount, isMounted, hm, hok]
  simp

/-- Under a distinct, fully-mounted ledger with plain unmounts succeeding,
the reverse loop emits one plain unmount per entry, in list order. -/
theorem foldl_unmountEntry_plain (env : Env)
    (hall : ∀ p, env.umountOk [p] = true) :
    ∀ (l : List String) (s : St), l.Nodup →
      (∀ p ∈ l, p ∈ s.world.mounted) →
      umountTargets ((l.foldl (unmountEntry env) s).trace)
        = umountTargets s.trace ++ l := by
  intro l
  induction l with
  | nil => intro s _ _; simp
  | cons p rest ih =>
    intro s hnd hmem
    have hstep := unmountEntry_plain_step env s p (hmem p (by simp)) (hall p)
    rw [List.foldl_cons, ih (unmountEntry env s p) hnd.of_cons]
    · rw [hstep]
      simp [umountTargets, umountTarget]
    · intro q hq
      rw [hstep]
      have hqs : q ∈ s.world.mounted := hmem q (List.mem_cons_of_mem p hq)
      have hne : q ≠ p := by
        intro h
        subst h
        exact (List.nodup_cons.mp hnd).1 hq
      exact (List.mem_erase_of_ne hne).mpr hqs

/-- Case eliminator for the error-propagating sequencing. -/
theorem andThenE_cases {r : St × Option JailError}
    {k : St → St × Option JailError} (P : St × Option JailError → Prop)
    (h1 : ∀ s e, r = (s, some e) → P (s, some e))
    (h2 : ∀ s, r = (s, none) → P (k s)) : P (andThenE r k) := by
  rcases hr : r with ⟨s, e⟩
  cases e with
  | none => exact h2 s hr
  | some e => exact h1 s e hr

theorem doStep_fst_jail (s : St) (a : Action) (ok : Bool) (e : JailError) :
    (doStep s a ok e).1.jail = s.jail := rfl

theorem runMount_fst_jail (env : Env) (s : St) (args : List String)
    (target : String) (e : JailError) :
    (runMount env s args target e).1.jail = s.jail := by
  unfold runMount
  split
  all_goals rfl

theorem runRemount_fst_jail (env : Env) (s : St) (target : String)
    (e : JailError) : (runRemount env s target e).1.jail = s.jail := rfl

theorem pairFstJail {r : St × Option JailError} {s1 : St}
    {e : Option JailError} (hd : r = (s1, e)) : s1.jail = r.1.jail := by
  rw [hd]

theorem andThenE_fst_jail {r : St × Option JailError}
    {k : St → St × Option JailError} {J : Jail} (hr : r.1.jail = J)
    (hk : ∀ s, s.jail = J → (k s).1.jail = J) :
    (andThenE r k).1.jail = J := by
  rcases r with ⟨s, e⟩
  cases e with
  | none => exact hk s hr
  | some e => exact hr

/-- The special-mounts loop changes the Jail struct only in its ledger. -/
theorem mountSpecialList_jmo (env : Env) :
    ∀ (ms : List SpecialMount) (s : St),
      JailMountsOnly s.jail (mountSpecialList env ms s).1.jail := by
  intro ms
  induction ms with
  | nil => intro s; exact jmoRefl _
  | cons m rest ih =>
    intro s
    simp only [mountSpecialList]
    refine andThenE_cases (fun r => JailMountsOnly s.jail r.1.jail) ?_ ?_
    · intro s1 e hd
      have hs1 : s1.jail = s.jail :=
        (pairFstJail hd).trans (doStep_fst_jail s _ _ _)
      exact ⟨s1.jail.mounts, by show s1.jail = _; rw [hs1]⟩
    · intro s1 hd
      have hs1 : s1.jail = s.jail :=
        (pairFstJail hd).trans (doStep_fst_jail s _ _ _)
      refine andThenE_cases (fun r => JailMountsOnly s.jail r.1.jail) ?_ ?_
      · intro s2 e hm
        have hs2 : s2.jail = s.jail :=
          ((pairFstJail hm).trans (runMount_fst_jail env s1 _ _ _)).trans hs1
        exact ⟨s2.jail.mounts, by show s2.jail = _; rw [hs2]⟩
      · intro s2 hm
        have hs2 : s2.jail = s.jail :=
          ((pairFstJail hm).trans (runMount_fst_jail env s1 _ _ _)).trans hs1
        have hone : JailMountsOnly s.jail (recordMount s2 m.target).jail :=
          ⟨s2.jail.mounts ++ [m.target], by simp [recordMount, hs2]⟩
        exact jmoTrans hone (ih (recordMount s2 m.target))

/-- The extra-mounts loop changes the Jail struct only in its ledger. -/
theorem mountExtraList_jmo (env : Env) (chrootDir : String) :
    ∀ (mps : List MountPoint) (s : St),
      JailMountsOnly s.jail (mountExtraList env chrootDir mps s).1.jail := by
  intro mps
  induction mps with
  | nil => intro s; exact jmoRefl _
  | cons mp rest ih =>
    intro s
    simp only [mountExtraList]
    refine andThenE_cases (fun r => JailMountsOnly s.jail r.1.jail) ?_ ?_
    · intro s1 e hd
      have hs1 : s1.jail = s.jail := by
        refine (pairFstJail hd).trans ?_
        split
        · exact doStep_fst_jail s _ _ _
        · exact andThenE_fst_jail (doStep_fst_jail s _ _ _) fun s2 hs2 => by
            split
            · exact hs2
            · exact hs2
      exact ⟨s1.jail.mounts, by show s1.jail = _; rw [hs1]⟩
    · intro s1 hd
      have hs1 : s1.jail = s.jail := by
        refine (pairFstJail hd).trans ?_
        split
        · exact doStep_fst_jail s _ _ _
        · exact andThenE_fst_jail (doStep_fst_jail s _ _ _) fun s2 hs2 => by
            split
            · exact hs2
            · exact hs2
      refine andThenE_cases (fun r => JailMountsOnly s.jail r.1.jail) ?_ ?_
      · intro s2 e hm
        have hs2 : s2.jail = s.jail :=
          ((pairFstJail hm).trans (runMount_fst_jail env s1 _ _ _)).trans hs1
        exact ⟨s2.jail.mounts, by show s2.jail = _; rw [hs2]⟩
      · intro s2 hm
        have hs2 : s2.jail = s.jail :=
          ((pairFstJail hm).trans (runMount_fst_jail env s1 _ _ _)).trans hs1
        have hone : JailMountsOnly s.jail
            (recordMount s2 (joinPath chrootDir mp.destination)).jail :=
          ⟨s2.jail.mounts ++ [joinPath chrootDir mp.destination],
            by simp [recordMount, hs2]⟩
        exact jmoTrans hone (ih (recordMount s2 (joinPath chrootDir mp.destination)))

/-- Case eliminator for the error-wrapping sequencing. -/
theorem andThenWrap_cases {r : St × Option JailError} {w : JailError → JailError}
    {k : St → St × Option JailError} (P : St × Option JailError → Prop)
    (h1 : ∀ s e, r = (s, some e) → P (s, some (w e)))
    (h2 : ∀ s, r = (s, none) → P (k s)) : P (andThenWrap r w k) := by
  rcases hr : r with ⟨s, e⟩
  cases e with
  | none => exact h2 s hr
  | some e => exact h1 s e hr

theorem andThenE_jmo {r : St × Option JailError}
    {k : St → St × Option JailError} {J : Jail}
    (hr : JailMountsOnly J r.1.jail)
    (hk : ∀ s, JailMountsOnly J s.jail → JailMountsOnly J (k s).1.jail) :
    JailMountsOnly J (andThenE r k).1.jail := by
  rcases r with ⟨s, e⟩
  cases e with
  | none => exact hk s hr
  | some e => exact hr

theorem andThenWrap_jmo {r : St × Option JailError} {w : JailError → JailError}
    {k : St → St × Option JailError} {J : Jail}
    (hr : JailMountsOnly J r.1.jail)
    (hk : ∀ s, JailMountsOnly J s.jail → JailMountsOnly J (k s).1.jail) :
    JailMountsOnly J (andThenWrap r w k).1.jail := by
  rcases r with ⟨s, e⟩
  cases e with
  | none => exact hk s hr
  | some e => exact hr

theorem recordMount_jmo {J : Jail} {s : St} (h : JailMountsOnly J s.jail)
    (p : String) : JailMountsOnly J (recordMount s p).jail := by
  obtain ⟨m, hm⟩ := h
  exact ⟨s.jail.mounts ++ [p], by simp [recordMount, hm]⟩

/-- `mountTemplate` changes the Jail struct only in its ledger. -/
theorem mountTemplate_jmo (env : Env) (s : St) :
    JailMountsOnly s.jail (mountTemplate env s).1.jail := by
  simp only [mountTemplate]
  split
  · exact jmoRefl _
  refine andThenE_jmo (jmoRefl _) fun s1 h1 => ?_
  refine andThenE_jmo h1 fun s2 h2 => ?_
  refine andThenE_jmo (by rw [runMount_fst_jail]; exact h2) fun s3 h3 => ?_
  refine andThenE_jmo h3 fun s4 h4 => ?_
  refine andThenE_jmo ?_ fun s5 h5 => ?_
  · have hrec := recordMount_jmo h4 (joinPath s.jail.config.chrootDir "template")
    split
    · exact hrec
    · exact hrec
  refine andThenE_jmo (by rw [runMount_fst_jail]; exact h5) fun s6 h6 => ?_
  refine andThenE_jmo h6 fun s7 h7 => ?_
  have hrec := recordMount_jmo h7 (joinPath s.jail.config.chrootDir "scripts")
  split
  · exact hrec
  · exact hrec

/-- `setupMounts` changes the Jail struct only in its ledger. -/
theorem setupMounts_jmo (env : Env) (s : St) :
    JailMountsOnly s.jail (setupMounts env s).1.jail := by
  simp only [setupMounts]
  split
  · exact jmoRefl _
  split
  · exact jmoRefl _
  refine andThenE_jmo (jmoRefl _) fun s1 h1 => ?_
  refine andThenE_jmo ?_ fun s2 h2 => ?_
  · split
    · exact h1
    · exact h1
  refine andThenE_jmo h2 fun s3 h3 => ?_
  refine andThenE_jmo h3 fun s4 h4 => ?_
  refine andThenE_jmo (by rw [runMount_fst_jail]; exact h4) fun s5 h5 => ?_
  refine andThenE_jmo ?_ fun s6 h6 => ?_
  · exact jmoTrans (recordMount_jmo h5 s.jail.config.chrootDir)
      (mountSpecialList_jmo env _ _)
  refine andThenWrap_jmo (jmoTrans h6 (mountTemplate_jmo env s6)) fun s7 h7 => ?_
  exact jmoTrans h7 (mountExtraList_jmo env _ _ s7)

/-- If the writability probe would succeed, `mountTemplate` cannot return
without an error. -/
theorem mountTemplate_touch_blocks (env : Env) (s : St)
    (ht : env.touchOk (templateTestFile s.jail.config.chrootDir) = true) :
    (mountTemplate env s).2 ≠ none := by
  simp only [mountTemplate]
  split
  · simp
  refine andThenE_cases (fun r => r.2 ≠ none) ?_ (fun s1 _ => ?_)
  · intro s1 e _; simp
  refine andThenE_cases (fun r => r.2 ≠ none) ?_ (fun s2 _ => ?_)
  · intro s2 e _; simp
  refine andThenE_cases (fun r => r.2 ≠ none) ?_ (fun s3 _ => ?_)
  · intro s3 e _; simp
  refine andThenE_cases (fun r => r.2 ≠ none) ?_ (fun s4 _ => ?_)
  · intro s4 e _; simp
  refine andThenE_cases (fun r => r.2 ≠ none) ?_ (fun s5 _ => ?_)
  · intro s5 e _; simp
  refine andThenE_cases (fun r => r.2 ≠ none) ?_ (fun s6 _ => ?_)
  · intro s6 e _; simp
  refine andThenE_cases (fun r => r.2 ≠ none) ?_ (fun s7 _ => ?_)
  · intro s7 e _; simp
  simp [ht]

/-- If the writability probe would succeed, `setupMounts` cannot return
without an error. -/
theorem setupMounts_touch_blocks (env : Env) (s : St)
    (ht : env.touchOk (templateTestFile s.jail.config.chrootDir) = true) :
    (setupMounts env s).2 ≠ none := by
  simp only [setupMounts]
  split
  · simp
  split
  · simp
  refine andThenE_cases (fun r => r.2 ≠ none) ?_ (fun s1 hd1 => ?_)
  · intro s1 e _; simp
  have hj1 : s1.jail = s.jail := (pairFstJail hd1).trans (doStep_fst_jail s _ _ _)
  refine andThenE_cases (fun r => r.2 ≠ none) ?_ (fun s2 hd2 => ?_)
  · intro s2 e _; simp
  have hj2 : s2.jail = s.jail := by
    refine ((pairFstJail hd2).trans ?_).trans hj1
    split
    · exact doStep_fst_jail s1 _ _ _
    · rfl
  refine andThenE_cases (fun r => r.2 ≠ none) ?_ (fun s3 hd3 => ?_)
  · intro s3 e _; simp
  have hj3 : s3.jail = s.jail :=
    ((pairFstJail hd3).trans (doStep_fst_jail s2 _ _ _)).trans hj2
  refine andThenE_cases (fun r => r.2 ≠ none) ?_ (fun s4 hd4 => ?_)
  · intro s4 e _; simp
  have hj4 : s4.jail = s.jail :=
    ((pairFstJail hd4).trans (doStep_fst_jail s3 _ _ _)).trans hj3
  refine andThenE_cases (fun r => r.2 ≠ none) ?_ (fun s5 hd5 => ?_)
  · intro s5 e _; simp
  have hj5 : s5.jail = s.jail :=
    ((pairFstJail hd5).trans (runMount_fst_jail env s4 _ _ _)).trans hj4
  refine andThenE_cases (fun r => r.2 ≠ none) ?_ (fun s6 hd6 => ?_)
  · intro s6 e _; simp
  have hj6 : s6.jail.config = s.jail.config := by
    have h1 := pairFstJail hd6
    have h2 := jmoConfig (mountSpecialList_jmo env
      (specialMounts s.jail.config.chrootDir)
      (recordMount s5 s.jail.config.chrootDir))
    rw [h1, h2]
    show s5.jail.config = s.jail.config
    rw [hj5]
  refine andThenWrap_cases (fun r => r.2 ≠ none) ?_ (fun s7 hm => ?_)
  · intro s7 e _; simp
  have ht6 : env.touchOk (templateTestFile s6.jail.config.chrootDir) = true := by
    rw [show s6.jail.config.chrootDir = s.jail.config.chrootDir from by rw [hj6]]
    exact ht
  exact absurd (congrArg Prod.snd hm) (mountTemplate_touch_blocks env s6 ht6)

/-! ### Claim theorems -/

/-- C6: when the controller is not Running, both command-execution variants
return the not-running error and the state — jail, kernel mounts and trace —
is exactly the input state: no process action, no output, no mount change. -/
theorem executor_requires_running (env : Env) (s : St) (command : String)
    (args : List String) (h : s.jail.running = false) :
    ExecuteCommand env s command args
      = (s, none, some JailError.jailNotRunning) ∧
    ExecuteCommandWithOutput env s command args
      = (s, none, some JailError.jailNotRunning) := by
  constructor
  · simp [ExecuteCommand, h]
  · simp [ExecuteCommandWithOutput, h]

/-- C6 witness. -/
theorem executor_requires_running_witness :
    ExecuteCommand baseEnv idleSt "apk" ["add", "bash"]
      = (idleSt, none, some JailError.jailNotRunning) ∧
    ExecuteCommandWithOutput baseEnv idleSt "apk" ["add", "bash"]
      = (idleSt, none, some JailError.jailNotRunning) :=
  executor_requires_running baseEnv idleSt "apk" ["add", "bash"] rfl

/-- C7: when the confined command exits non-zero, the buffered executor
returns the captured combined output together with the execution error, and
the Jail struct (in particular the Running state) is unchanged. -/
theorem buffered_exec_returns_output_on_failure (env : Env) (s : St)
    (command : String) (args : List String) (hrun : s.jail.running = true)
    (hfail : env.execFails command args = true) :
    (ExecuteCommandWithOutput env s command args).2.1
      = some (env.execOutput command args) ∧
    (ExecuteCommandWithOutput env s command args).2.2
      = some JailError.commandFailed ∧
    (ExecuteCommandWithOutput env s command args).1.jail = s.jail ∧
    IsRunning (ExecuteCommandWithOutput env s command args).1.jail = true := by
  refine ⟨?_, ?_, ?_, ?_⟩ <;>
    simp [ExecuteCommandWithOutput, hrun, hfail, logA, IsRunning]

/-- C7 witness. -/
theorem buffered_exec_returns_output_on_failure_witness :
    (ExecuteCommandWithOutput envExecFail runningSt "sh" ["/scripts/run.sh"]).2.1
      = some "boom" ∧
    (ExecuteCommandWithOutput envExecFail runningSt "sh" ["/scripts/run.sh"]).2.2
      = some JailError.commandFailed ∧
    IsRunning (ExecuteCommandWithOutput envExecFail runningSt "sh"
      ["/scripts/run.sh"]).1.jail = true := by
  have h := buffered_exec_returns_output_on_failure envExecFail runningSt "sh"
    ["/scripts/run.sh"] rfl rfl
  exact ⟨h.1, h.2.1, h.2.2.2⟩

/-- C9: while Running, the PID-namespace and UID/GID-mapping setters are
silently ignored: they return the Jail completely unchanged. -/
theorem setters_frozen_while_running (j : Jail) (enabled : Bool)
    (ms gs : List IDMapping) (h : j.running = true) :
    SetPidNamespace j enabled = j ∧ SetUIDMappings j ms = j ∧
    SetGIDMappings j gs = j := by
  refine ⟨?_, ?_, ?_⟩ <;>
    simp [SetPidNamespace, SetUIDMappings, SetGIDMappings, h]

/-- C9 witness. -/
theorem setters_frozen_while_running_witness :
    SetPidNamespace runningJail false = runningJail ∧
    SetUIDMappings runningJail [⟨1, 2000, 1⟩] = runningJail ∧
    SetGIDMappings runningJail [⟨1, 2000, 1⟩] = runningJail :=
  setters_frozen_while_running runningJail false [⟨1, 2000, 1⟩] [⟨1, 2000, 1⟩] rfl

/-- C10: a successful `NewJail` stores the templatePath argument as the
template-tree path, and the `template_path` parsed from the config file has
no influence on the constructed Jail at all. -/
theorem newjail_overrides_template_path (env : Env)
    (configPath templatePath : String) :
    (∀ j, NewJail env configPath templatePath = Except.ok j →
      j.config.templatePath = templatePath) ∧
    (∀ cfg x, mkJailFromLoaded env configPath templatePath
        { cfg with templatePath := x }
      = mkJailFromLoaded env configPath templatePath cfg) := by
  constructor
  · intro j h
    unfold NewJail mkJailFromLoaded at h
    split at h
    · exact absurd h (by simp)
    · split at h
      · exact absurd h (by simp)
      · split at h
        · exact absurd h (by simp)
        · simp only [Except.ok.injEq] at h
          subst h
          rfl
  · intro cfg x
    rfl

/-- C10 witness. -/
theorem newjail_overrides_template_path_witness :
    (∃ j, NewJail envLoad "jail.yaml" "/tpl" = Except.ok j ∧
      j.config.templatePath = "/tpl") ∧
    mkJailFromLoaded envLoad "jail.yaml" "/tpl"
        { sampleConfig with templatePath := "/other" }
      = mkJailFromLoaded envLoad "jail.yaml" "/tpl" sampleConfig := by
  have h := newjail_overrides_template_path envLoad "jail.yaml" "/tpl"
  exact ⟨⟨_, rfl, h.1 _ rfl⟩, h.2 sampleConfig "/other"⟩

/-- C3 counterexample: on a Running controller with a live process handle,
a failing kill makes `Stop` return an error while the controller is still
Running and the ledger untouched — `Stop` did leave the controller in
Running, contradicting the claim as stated. -/
theorem stop_kill_failure_stays_running_cex :
    (Stop envKillFail runningSt).2 = some JailError.killProcessFailed ∧
    IsRunning (Stop envKillFail runningSt).1.jail = true ∧
    (Stop envKillFail runningSt).1.jail.mounts = ["/c"] := by
  decide

/-- C3 (amended): for every Stop() call on a Running controller in which
terminating the confined process succeeds (or no process handle exists),
Stop runs teardown, transitions to Idle and empties the ledger regardless of
how many unmount steps failed. -/
theorem stop_reaches_idle (env : Env) (s : St) (hrun : s.jail.running = true)
    (hk : s.jail.hasProcess = false ∨ env.killOk = true) :
    (Stop env s).2 = none ∧ IsRunning (Stop env s).1.jail = false ∧
    (Stop env s).1.jail.mounts = [] := by
  by_cases hp : s.jail.hasProcess
  · have hkill : env.killOk = true := by
      rcases hk with h | h
      · rw [h] at hp; exact absurd hp (by simp)
      · exact h
    simp [Stop, hrun, hp, hkill, andThenE, IsRunning, cleanup_jail]
  · have hp' : s.jail.hasProcess = false := by simpa using hp
    simp [Stop, hrun, hp', andThenE, IsRunning, cleanup_jail]

/-- C3 witness (for the amended claim). -/
theorem stop_reaches_idle_witness :
    (Stop baseEnv runningSt).2 = none ∧
    IsRunning (Stop baseEnv runningSt).1.jail = false ∧
    (Stop baseEnv runningSt).1.jail.mounts = [] :=
  stop_reaches_idle baseEnv runningSt rfl (Or.inr rfl)

/-- C5 counterexample: the escalation for a stuck entry issues the plain,
forced and lazy unmount attempts back to back — the full teardown trace for
a one-entry ledger contains no pause of any kind between the attempts,
refuting the claimed brief pause. -/
theorem unmount_escalation_no_pause_cex :
    (cleanup envUmountFail stEmptyChroot).trace
      = [Action.checkMounted "/m", Action.umount ["/m"],
         Action.umount ["-f", "/m"], Action.umount ["-l", "/m"]] ∧
    Action.sleep ∉ (cleanup envUmountFail stEmptyChroot).trace := by
  decide

/-- C5 (amended): for each still-mounted ledger entry the engine attempts a
plain, then a forced, then a lazy unmount with no pause in between, the
first success stopping the escalation; an entry that is no longer mounted is
only checked; and `Stop` succeeds regardless of the unmount outcomes. -/
theorem unmount_escalation_order (env : Env) (s : St) (p : String) :
    (p ∈ s.world.mounted →
      umountArgsOf ((unmountEntry env s p).trace)
        = umountArgsOf s.trace ++
          (if env.umountOk [p] = true then [[p]]
           else if env.umountOk ["-f", p] = true then [[p], ["-f", p]]
           else [[p], ["-f", p], ["-l", p]])) ∧
    (p ∉ s.world.mounted → unmountEntry env s p = logA s (.checkMounted p)) ∧
    (s.jail.running = true → (s.jail.hasProcess = false ∨ env.killOk = true) →
      (Stop env s).2 = none) := by
  refine ⟨?_, ?_, ?_⟩
  · intro hm
    by_cases h1 : env.umountOk [p] = true
    · simp [unmountEntry, isMounted, hm, h1, logA, kernelUnmount,
        umountArgsOf, umountArgs]
    · by_cases h2 : env.umountOk ["-f", p] = true
      · simp [unmountEntry, isMounted, hm, h1, h2, logA, kernelUnmount,
          umountArgsOf, umountArgs]
      · by_cases h3 : env.umountOk ["-l", p] = true
        · simp [unmountEntry, isMounted, hm, h1, h2, h3, logA, kernelUnmount,
            umountArgsOf, umountArgs]
        · simp [unmountEntry, isMounted, hm, h1, h2, h3, logA, kernelUnmount,
            umountArgsOf, umountArgs]
  · intro hm
    have hd : isMounted (logA s (Action.checkMounted p)) p = false := by
      simp [isMounted, logA, hm]
    simp only [unmountEntry, hd]
    simp
  · intro hrun hk
    exact (stop_reaches_idle env s hrun hk).1

/-- C5 witness (for the amended claim). -/
theorem unmount_escalation_order_witness :
    umountArgsOf ((unmountEntry envUmountFail stEmptyChroot "/m").trace)
      = [["/m"], ["-f", "/m"], ["-l", "/m"]] ∧
    (Stop envUmountFail stEmptyChroot).2 = none := by
  have h := unmount_escalation_order envUmountFail stEmptyChroot "/m"
  refine ⟨?_, h.2.2 rfl (Or.inl rfl)⟩
  have h1 := h.1 (by decide)
  rw [h1]
  decide

/-- C4: teardown processes the ledger in exact reverse creation order: the
sequence of per-entry mounted-checks issued by `cleanup` starts with the
reversed ledger, and (for a duplicate-free, fully mounted ledger whose plain
unmounts succeed) so does the sequence of unmount-attempt targets. -/
theorem teardown_reverse_order (env : Env) (s : St) :
    (∃ rest, checkedPaths ((cleanup env s).trace)
      = checkedPaths s.trace ++ s.jail.mounts.reverse ++ rest) ∧
    (s.jail.mounts.Nodup →
      (∀ p ∈ s.jail.mounts, p ∈ s.world.mounted) →
      (∀ p, env.umountOk [p] = true) →
      ∃ rest, umountTargets ((cleanup env s).trace)
        = umountTargets s.trace ++ s.jail.mounts.reverse ++ rest) := by
  obtain ⟨t, htr⟩ := cleanup_trace_decomp env s
  constructor
  · refine ⟨checkedPaths t, ?_⟩
    rw [htr, checkedPaths_append, foldl_unmountEntry_checked, List.append_assoc]
  · intro hnd hmem hall
    refine ⟨umountTargets t, ?_⟩
    rw [htr, umountTargets_append,
      foldl_unmountEntry_plain env hall s.jail.mounts.reverse s
        (List.nodup_reverse.mpr hnd)
        (fun p hp => hmem p (List.mem_reverse.mp hp)),
      List.append_assoc]

/-- C4 witness. -/
theorem teardown_reverse_order_witness :
    (∃ rest, checkedPaths ((cleanup baseEnv runningSt).trace)
      = checkedPaths runningSt.trace ++ runningSt.jail.mounts.reverse ++ rest) ∧
    (∃ rest, umountTargets ((cleanup baseEnv runningSt).trace)
      = umountTargets runningSt.trace ++ runningSt.jail.mounts.reverse ++ rest) := by
  have h := teardown_reverse_order baseEnv runningSt
  exact ⟨h.1, h.2 (by decide) (by decide) (fun p => rfl)⟩

/-- C2 counterexample: when a setup step fails (here: mounting proc into the
confinement root), `Start` returns the error with the overlay still recorded
in the ledger and without a single unmount attempt in the whole run — the
teardown engine was not invoked before `Start` returned. -/
theorem setup_failure_skips_rollback_cex :
    (Start envProcMountFail idleSt).2
      = some (JailError.mountFailed "/proc" "/c/proc") ∧
    (Start envProcMountFail idleSt).1.jail.mounts = ["/c"] ∧
    (Start envProcMountFail idleSt).1.trace.filter isUmountAction = [] := by
  decide

/-- C2 (amended): a `setupMounts` failure is returned by `Start` verbatim,
with the partially filled ledger left in place and no teardown; the rollback
path exists only for a confined-process spawn failure, where `Start` errors
with the ledger cleared and the controller still Idle. -/
theorem start_rollback_only_on_spawn_failure (env : Env) (s : St)
    (hidle : s.jail.running = false) :
    ((setupMounts env s).2 ≠ none → Start env s = setupMounts env s) ∧
    ((setupMounts env s).2 = none → env.spawnOk = false →
      (Start env s).2 = some JailError.startCommandFailed ∧
      (Start env s).1.jail.mounts = [] ∧
      IsRunning (Start env s).1.jail = false) := by
  have hcond : ¬(s.jail.running = true) := by simp [hidle]
  constructor
  · intro hne
    unfold Start
    rw [if_neg hcond]
    rcases hr : setupMounts env s with ⟨s1, e1⟩
    cases e1 with
    | none => rw [hr] at hne; simp at hne
    | some e => simp [andThenE]
  · intro hok hspawn
    unfold Start
    rw [if_neg hcond]
    rcases hr : setupMounts env s with ⟨s1, e1⟩
    cases e1 with
    | some e => rw [hr] at hok; simp at hok
    | none =>
      have hrun1 : s1.jail.running = false := by
        have := jmoRunning (setupMounts_jmo env s)
        rw [hr] at this
        exact this.trans hidle
      simp [andThenE, hspawn, IsRunning, cleanup_jail, logA, hrun1]

/-- C2 witness (for the amended claim, spawn-failure branch). -/
theorem start_rollback_only_on_spawn_failure_witness :
    (Start envSpawnFail idleSt).2 = some JailError.startCommandFailed ∧
    (Start envSpawnFail idleSt).1.jail.mounts = [] ∧
    IsRunning (Start envSpawnFail idleSt).1.jail = false :=
  (start_rollback_only_on_spawn_failure envSpawnFail idleSt rfl).2
    (by decide) rfl

/-- C8 counterexample: with the confinement-root, base-tree and template-tree
paths all equal (and every external operation succeeding), `Start` succeeds —
no distinctness check exists, contradicting the claim that Start fails
whenever the distinctness requirement is violated. -/
theorem start_accepts_non_distinct_paths_cex :
    samePathSt.jail.config.chrootDir = samePathSt.jail.config.builderPath ∧
    samePathSt.jail.config.builderPath = samePathSt.jail.config.templatePath ∧
    (Start baseEnv samePathSt).2 = none ∧
    IsRunning (Start baseEnv samePathSt).1.jail = true := by
  decide

/-- C8 (amended): at Start() time only the existence of the base-tree and
template-tree paths is verified (the confinement root is created, not
checked, and no distinctness or emptiness check happens at Start); when the
base tree is missing, Start returns the does-not-exist error with the state
completely untouched — nothing is created or mounted; likewise for a missing
template tree. -/
theorem start_path_existence_checks (env : Env) (s : St)
    (hidle : s.jail.running = false) :
    (env.pathExists s.jail.config.builderPath = false →
      Start env s
        = (s, some (JailError.builderPathDoesNotExist s.jail.config.builderPath))) ∧
    (env.pathExists s.jail.config.builderPath = true →
      env.pathExists s.jail.config.templatePath = false →
      Start env s
        = (s, some (JailError.templatePathDoesNotExist s.jail.config.templatePath))) := by
  have hcond : ¬(s.jail.running = true) := by simp [hidle]
  constructor
  · intro hb
    unfold Start
    rw [if_neg hcond]
    simp [setupMounts, hb, andThenE]
  · intro hb htp
    unfold Start
    rw [if_neg hcond]
    simp [setupMounts, hb, htp, andThenE]

/-- C8 witness (for the amended claim, missing base tree). -/
theorem start_path_existence_checks_witness :
    Start envNoPaths idleSt
      = (idleSt, some (JailError.builderPathDoesNotExist "/b")) :=
  (start_path_existence_checks envNoPaths idleSt rfl).1 rfl

/-- C1: when all steps leading up to it succeed, the marker-file probe
succeeding makes `mountTemplate` abort with the critical-invariant error;
and whenever the probe would succeed, `Start` cannot return without an
error. -/
theorem template_write_probe_aborts_setup (env : Env) (s : St)
    (h1 : env.pathExists s.jail.config.templatePath = true)
    (h2 : env.mkdirOk (joinPath s.jail.config.chrootDir "template") = true)
    (h3 : env.mkdirOk (joinPath s.jail.config.chrootDir "scripts") = true)
    (h4 : env.mountOk ["--bind", s.jail.config.templatePath,
        joinPath s.jail.config.chrootDir "template"] = true)
    (h5 : env.mountOk ["-o", "remount,ro,bind",
        joinPath s.jail.config.chrootDir "template"] = true)
    (h6 : env.pathExists (joinPath s.jail.config.templatePath "scripts") = true ∨
        env.mkdirOk (joinPath s.jail.config.templatePath "scripts") = true)
    (h7 : env.mountOk ["--bind", joinPath s.jail.config.templatePath "scripts",
        joinPath s.jail.config.chrootDir "scripts"] = true)
    (h8 : env.mountOk ["-o", "remount,ro,bind",
        joinPath s.jail.config.chrootDir "scripts"] = true)
    (ht : env.touchOk (templateTestFile s.jail.config.chrootDir) = true) :
    (mountTemplate env s).2 = some JailError.criticalTemplateWritable ∧
    (Start env s).2 ≠ none := by
  constructor
  · by_cases hx : env.pathExists (joinPath s.jail.config.templatePath "scripts") = true
    · simp [mountTemplate, andThenE, doStep, runMount, runRemount, logA,
        kernelMount, recordMount, h1, h2, h3, h4, h5, hx, h7, h8, ht]
    · have hx' : env.pathExists (joinPath s.jail.config.templatePath "scripts")
          = false := by simpa using hx
      have h6' : env.mkdirOk (joinPath s.jail.config.templatePath "scripts")
          = true := by
        rcases h6 with h | h
        · exact absurd h hx
        · exact h
      simp [mountTemplate, andThenE, doStep, runMount, runRemount, logA,
        kernelMount, recordMount, h1, h2, h3, h4, h5, hx', h6', h7, h8, ht]
  · intro hnone
    unfold Start at hnone
    by_cases hr : s.jail.running = true
    · rw [if_pos hr] at hnone
      simp at hnone
    · rw [if_neg hr] at hnone
      revert hnone
      refine andThenE_cases (fun r => r.2 = none → False) ?_ ?_
      · intro s1 e _
        simp
      · intro s1 hd
        exact absurd (congrArg Prod.snd hd) (setupMounts_touch_blocks env s ht)

/-- C1 witness. -/
theorem template_write_probe_aborts_setup_witness :
    (mountTemplate envTouchWritable idleSt).2
      = some JailError.criticalTemplateWritable ∧
    (Start envTouchWritable idleSt).2 ≠ none :=
  template_write_probe_aborts_setup envTouchWritable idleSt rfl rfl rfl rfl rfl
    (Or.inl rfl) rfl rfl rfl

end SysWeaver
